import Mathlib

/-!
Verification of the core logic of the ml-challenge-frontend product detail
page: the raw payload normalizer (`transformProduct`), the fetch envelope
unwrapping (`fetcher`), the variant resolution step (`handleVariantChange`),
the discount computation (`ProductOfferInfo`), the question-list operations,
and the fetch-batch coordination of `App.tsx`.

JavaScript runtime values produced by `JSON.parse` and manipulated by the
normalizer are embedded as the inductive type `JValue`; a possibly-absent
property (`undefined`) is an `Option JValue` with `none` for `undefined`.
-/

namespace MLC

/-- JSON-like runtime value: the shape of data produced by the host
`JSON.parse` and consumed by `transformProduct` / `fetcher` in
`src/lib/api.ts`. -/
inductive JValue where
  | null : JValue
  | bool : Bool → JValue
  | num : Rat → JValue
  | str : String → JValue
  | arr : List JValue → JValue
  | obj : List (String × JValue) → JValue
  deriving Repr

/-- JavaScript truthiness of a `JValue` (`!x` / `x || y` semantics):
`null`, `false`, `0` and the empty string are falsy; every object and
array is truthy. -/
def jsTruthy : JValue → Bool
  | .null => false
  | .bool b => b
  | .num n => n != 0
  | .str s => s != ""
  | .arr _ => true
  | .obj _ => true

/-- First-occurrence lookup in an association list of object fields,
modelling JavaScript property read `o[key]` on a plain object
(`none` models `undefined`). -/
def lookupField : List (String × JValue) → String → Option JValue
  | [], _ => none
  | (k, v) :: rest, key => if k = key then some v else lookupField rest key

/-- Property read `j[key]` for the named (non-index) keys used by
`transformProduct` and `fetcher`: defined fields of a plain object; any
other receiver yields `undefined` (`none`). -/
def getField (j : JValue) (key : String) : Option JValue :=
  match j with
  | .obj fs => lookupField fs key
  | _ => none

/-- The own enumerable properties a value contributes under object spread
`\x7b...product\x7d`: an object's fields, an array's elements keyed by
their decimal index, nothing otherwise. -/
def objFieldsOf : JValue → List (String × JValue)
  | .obj fs => fs
  | .arr xs => xs.enum.map (fun p => (toString p.1, p.2))
  | _ => []

/-- Object-spread update `\x7b...fs, [key]: v\x7d`: overwrite the value in
place when the key is already present, append the new field otherwise. -/
def setField (fs : List (String × JValue)) (key : String) (v : JValue) :
    List (String × JValue) :=
  if fs.any (fun p => decide (p.1 = key)) then
    fs.map (fun p => if p.1 = key then (key, v) else p)
  else
    fs ++ [(key, v)]

end MLC

namespace MLC

/-- Double-quote character, named to keep literals readable. -/
def quoteCh : Char := Char.ofNat 34

/-- Backslash character. -/
def backslashCh : Char := Char.ofNat 92

/-- Opening brace character. -/
def lbraceCh : Char := Char.ofNat 123

/-- Closing brace character. -/
def rbraceCh : Char := Char.ofNat 125

/-- Opening bracket character. -/
def lbrackCh : Char := Char.ofNat 91

/-- Closing bracket character. -/
def rbrackCh : Char := Char.ofNat 93

/-- Skip JSON whitespace. -/
def skipWs : List Char → List Char
  | c :: rest =>
    if c = ' ' ∨ c = '\t' ∨ c = '\n' ∨ c = '\r' then skipWs rest else c :: rest
  | [] => []

/-- Parse the remainder of a JSON string literal (opening quote already
consumed). Escape sequences are not modelled: a backslash makes the parse
fail, which only makes this model of the host parser partial, never wrong
on the inputs used here. -/
def parseStringLit : List Char → Option (String × List Char)
  | [] => none
  | c :: rest =>
    if c = quoteCh then some ("", rest)
    else if c = backslashCh then none
    else
      match parseStringLit rest with
      | some (s, rem) => some (String.mk (c :: s.data), rem)
      | none => none

/-- Split a leading run of decimal digits from the input. -/
def takeDigits : List Char → List Char × List Char
  | [] => ([], [])
  | c :: rest =>
    if c.isDigit then
      let (ds, rem) := takeDigits rest
      (c :: ds, rem)
    else ([], c :: rest)

/-- Decimal value of a digit list. -/
def natOfDigits (ds : List Char) : Nat :=
  ds.foldl (fun a c => a * 10 + (c.toNat - 48)) 0

/-- Parse a JSON number (optional minus, digits, optional fraction;
exponents are not modelled). -/
def parseNumber (cs : List Char) : Option (Rat × List Char) :=
  let signed : Bool × List Char :=
    match cs with
    | c :: rest => if c = '-' then (true, rest) else (false, cs)
    | [] => (false, [])
  let (ds, cs2) := takeDigits signed.2
  if ds.isEmpty then none
  else
    let intPart : Rat := (natOfDigits ds : Rat)
    match cs2 with
    | c :: rest =>
      if c = '.' then
        let (fs, cs3) := takeDigits rest
        if fs.isEmpty then none
        else
          let q : Rat := intPart + (natOfDigits fs : Rat) / ((10 : Rat) ^ fs.length)
          some (if signed.1 then -q else q, cs3)
      else some (if signed.1 then -intPart else intPart, cs2)
    | [] => some (if signed.1 then -intPart else intPart, [])

mutual

/-- Fuel-indexed parser for a single JSON value; models the host
`JSON.parse` grammar on the subset without escape sequences and
exponents. -/
def parseVal : Nat → List Char → Option (JValue × List Char)
  | 0, _ => none
  | fuel + 1, cs =>
    match skipWs cs with
    | [] => none
    | c :: rest =>
      if c = quoteCh then
        match parseStringLit rest with
        | some (s, rem) => some (.str s, rem)
        | none => none
      else if c = lbrackCh then
        match skipWs rest with
        | d :: rem2 =>
          if d = rbrackCh then some (.arr [], rem2)
          else
            match parseItems fuel (d :: rem2) with
            | some (xs, rem3) => some (.arr xs, rem3)
            | none => none
        | [] => none
      else if c = lbraceCh then
        match skipWs rest with
        | d :: rem2 =>
          if d = rbraceCh then some (.obj [], rem2)
          else
            match parseMembers fuel (d :: rem2) with
            | some (ms, rem3) => some (.obj ms, rem3)
            | none => none
        | [] => none
      else if c = 'n' then
        match rest with
        | 'u' :: 'l' :: 'l' :: rem => some (.null, rem)
        | _ => none
      else if c = 't' then
        match rest with
        | 'r' :: 'u' :: 'e' :: rem => some (.bool true, rem)
        | _ => none
      else if c = 'f' then
        match rest with
        | 'a' :: 'l' :: 's' :: 'e' :: rem => some (.bool false, rem)
        | _ => none
      else
        match parseNumber (c :: rest) with
        | some (q, rem) => some (.num q, rem)
        | none => none

/-- Fuel-indexed parser for the non-empty element list of a JSON array,
up to and including the closing bracket. -/
def parseItems : Nat → List Char → Option (List JValue × List Char)
  | 0, _ => none
  | fuel + 1, cs =>
    match parseVal fuel cs with
    | some (v, rem) =>
      match skipWs rem with
      | c :: rem2 =>
        if c = ',' then
          match parseItems fuel rem2 with
          | some (vs, rem3) => some (v :: vs, rem3)
          | none => none
        else if c = rbrackCh then some ([v], rem2)
        else none
      | [] => none
    | none => none

/-- Fuel-indexed parser for the non-empty member list of a JSON object,
up to and including the closing brace. -/
def parseMembers : Nat → List Char → Option (List (String × JValue) × List Char)
  | 0, _ => none
  | fuel + 1, cs =>
    match skipWs cs with
    | c :: rest =>
      if c = quoteCh then
        match parseStringLit rest with
        | some (k, rem) =>
          match skipWs rem with
          | d :: rem2 =>
            if d = ':' then
              match parseVal fuel rem2 with
              | some (v, rem3) =>
                match skipWs rem3 with
                | e :: rem4 =>
                  if e = ',' then
                    match parseMembers fuel rem4 with
                    | some (ms, rem5) => some ((k, v) :: ms, rem5)
                    | none => none
                  else if e = rbraceCh then some ([(k, v)], rem4)
                  else none
                | [] => none
              | none => none
            else none
          | [] => none
        | none => none
      else none
    | [] => none

end

/-- Model of the host `JSON.parse`: `none` models a thrown `SyntaxError`. -/
def jsonParse (s : String) : Option JValue :=
  match parseVal (2 * s.length + 2) s.data with
  | some (v, rem) => if (skipWs rem).isEmpty then some v else none
  | none => none

/-- The guard of `transformProduct` (src/lib/api.ts:14):
`!product || typeof product !== 'object'` is false exactly for non-null
values of JavaScript type `'object'`, i.e. plain objects and arrays
(`typeof [] === 'object'` and arrays are truthy). -/
def isJsObjectLike : JValue → Bool
  | .arr _ => true
  | .obj _ => true
  | _ => false

/-- `parseJsonField` (src/lib/api.ts:34-44): if the field is a string, run
`JSON.parse` on it and return `null` when parsing throws; any non-string
field (including `undefined`, modelled by `none`) is returned as-is. -/
def parseJsonField : Option JValue → Option JValue
  | some (.str s) =>
    match jsonParse s with
    | some v => some v
    | none => some .null
  | f => f

/-- JavaScript `a || b` where `a` may be `undefined` (`none`). -/
def jsOr (a : Option JValue) (b : JValue) : JValue :=
  match a with
  | some v => if jsTruthy v then v else b
  | none => b

/-- `Array.isArray(parsedImages) ? parsedImages : []`
(src/lib/api.ts:50). -/
def imagesValue : Option JValue → JValue
  | some (.arr xs) => .arr xs
  | _ => .arr []

/-- The default breadcrumbs object of the normalizer. -/
def breadcrumbsDefault : JValue := .obj [("path", .arr [])]

/-- The default specs object of the normalizer. -/
def specsDefault : JValue :=
  .obj [("highlighted", .arr []), ("featureGroups", .arr [])]

/-- The deterministic fallback Product of `transformProduct`
(src/lib/api.ts:16-26), returned for invalid or null raw data. -/
def fallbackProduct : JValue :=
  .obj
    [("id", .num 0),
     ("title", .str "Invalid Product"),
     ("images", .arr []),
     ("breadcrumbs", breadcrumbsDefault),
     ("benefits", .arr []),
     ("shipping",
       .obj
         [("free", .bool false), ("timeline", .str ""), ("deadline", .null),
          ("moreOptionsUrl", .str "#")]),
     ("pickup",
       .obj
         [("free", .bool false), ("timeline", .null), ("location", .null),
          ("mapUrl", .null)]),
     ("description", .str ""),
     ("specs", specsDefault)]

/-- The field-level body of `transformProduct` (src/lib/api.ts:48-56): the
raw product's own properties spread into the result, with `images`
coerced to an array and the five other JSON-string fields parsed and
defaulted (`X: parseJsonField(product.X) || default`). -/
def normalizeFields (fs : List (String × JValue)) : List (String × JValue) :=
  setField
    (setField
      (setField
        (setField
          (setField
            (setField fs "images"
              (imagesValue (parseJsonField (lookupField fs "images"))))
            "breadcrumbs"
            (jsOr (parseJsonField (lookupField fs "breadcrumbs")) breadcrumbsDefault))
          "benefits" (jsOr (parseJsonField (lookupField fs "benefits")) (.arr [])))
        "shipping" (jsOr (parseJsonField (lookupField fs "shipping")) (.obj [])))
      "pickup" (jsOr (parseJsonField (lookupField fs "pickup")) (.obj [])))
    "specs" (jsOr (parseJsonField (lookupField fs "specs")) specsDefault)

/-- `transformProduct` (src/lib/api.ts:13-57), the product normalizer
(the spec's `normalizeProduct`): a non-object raw value becomes the fixed
fallback Product; an object (or array) is spread into the result with the
six JSON-string fields parsed and defaulted. The function is total: the
source absorbs `JSON.parse` exceptions inside `parseJsonField` and throws
nowhere. -/
def transformProduct (product : JValue) : JValue :=
  if isJsObjectLike product then .obj (normalizeFields (objFieldsOf product))
  else fallbackProduct

/-- The success path of `fetcher` (src/lib/api.ts:92-94):
`result.data ?? result`. Reading `.data` on `null` throws a `TypeError`
(modelled as `.error`); on an object it yields the field or `undefined`;
on any other value it yields `undefined`; `??` falls back to the whole
body exactly when the read is `null` or `undefined`. -/
def fetcherUnwrap (result : JValue) : Except String JValue :=
  match result with
  | .null => .error "TypeError: cannot read properties of null"
  | .obj fields =>
    match lookupField fields "data" with
    | some .null => .ok (.obj fields)
    | some v => .ok v
    | none => .ok (.obj fields)
  | v => .ok v

/-- Whether a possibly-absent field value is a string. -/
def isStrVal : Option JValue → Bool
  | some (.str _) => true
  | _ => false

/-- The presence test used by `setField`. -/
def hasKey (fs : List (String × JValue)) (k : String) : Bool :=
  fs.any (fun p => decide (p.1 = k))

theorem lookupField_cons (p : String × JValue) (rest : List (String × JValue))
    (key : String) :
    lookupField (p :: rest) key =
      if p.1 = key then some p.2 else lookupField rest key := by
  obtain ⟨k, v⟩ := p
  rfl

theorem lookup_map_replace (fs : List (String × JValue)) (k : String) (v : JValue)
    (h : hasKey fs k = true) :
    lookupField (fs.map (fun p => if p.1 = k then (k, v) else p)) k = some v := by
  induction fs with
  | nil => simp [hasKey] at h
  | cons p rest ih =>
    by_cases hp : p.1 = k
    · have hfp : (if p.1 = k then ((k, v) : String × JValue) else p) = (k, v) :=
        if_pos hp
      rw [List.map_cons, hfp, lookupField_cons]
      simp
    · have hfp : (if p.1 = k then ((k, v) : String × JValue) else p) = p :=
        if_neg hp
      have h2 : hasKey rest k = true := by simpa [hasKey, hp] using h
      rw [List.map_cons, hfp, lookupField_cons, if_neg hp]
      exact ih h2

theorem lookup_append_single_ne (fs : List (String × JValue)) (k k' : String)
    (v : JValue) (h : k' ≠ k) :
    lookupField (fs ++ [(k', v)]) k = lookupField fs k := by
  induction fs with
  | nil => simp [lookupField, h]
  | cons p rest ih =>
    rw [List.cons_append, lookupField_cons, lookupField_cons]
    by_cases hp : p.1 = k
    · rw [if_pos hp, if_pos hp]
    · rw [if_neg hp, if_neg hp]
      exact ih

theorem lookup_not_found (fs : List (String × JValue)) (k : String)
    (h : hasKey fs k = false) : lookupField fs k = none := by
  induction fs with
  | nil => rfl
  | cons p rest ih =>
    simp only [hasKey, List.any_cons, Bool.or_eq_false_iff,
      decide_eq_false_iff_not] at h
    rw [lookupField_cons, if_neg h.1]
    exact ih (by simp [hasKey, h.2])

theorem lookupField_setField_self (fs : List (String × JValue)) (k : String)
    (v : JValue) : lookupField (setField fs k v) k = some v := by
  unfold setField
  cases h : fs.any (fun p => decide (p.1 = k)) with
  | true =>
    rw [if_pos rfl]
    exact lookup_map_replace fs k v h
  | false =>
    rw [if_neg (by simp)]
    rw [show (lookupField (fs ++ [(k, v)]) k = some v) =
      (lookupField (fs ++ [(k, v)]) k = some v) from rfl]
    have hnone : lookupField fs k = none := lookup_not_found fs k h
    induction fs with
    | nil => simp [lookupField]
    | cons p rest ih =>
      rw [lookupField_cons] at hnone
      rw [List.cons_append, lookupField_cons]
      by_cases hp : p.1 = k
      · rw [if_pos hp] at hnone
        exact absurd hnone (by simp)
      · rw [if_neg hp] at hnone ⊢
        exact ih (by simpa [hasKey, hp] using h) hnone

theorem lookup_map_replace_ne (fs : List (String × JValue)) (k k' : String)
    (v : JValue) (h : k' ≠ k) :
    lookupField (fs.map (fun p => if p.1 = k' then (k', v) else p)) k =
      lookupField fs k := by
  induction fs with
  | nil => simp
  | cons p rest ih =>
    rw [List.map_cons, lookupField_cons, lookupField_cons]
    by_cases hp : p.1 = k'
    · have hfp : (if p.1 = k' then ((k', v) : String × JValue) else p) = (k', v) :=
        if_pos hp
      rw [hfp]
      have hk : ¬((k', v) : String × JValue).1 = k := h
      have hpk : ¬p.1 = k := by rw [hp]; exact h
      rw [if_neg hk, if_neg hpk]
      exact ih
    · have hfp : (if p.1 = k' then ((k', v) : String × JValue) else p) = p :=
        if_neg hp
      rw [hfp]
      by_cases hpk : p.1 = k
      · rw [if_pos hpk, if_pos hpk]
      · rw [if_neg hpk, if_neg hpk]
        exact ih

theorem lookupField_setField_ne (fs : List (String × JValue)) (k k' : String)
    (v : JValue) (h : k' ≠ k) :
    lookupField (setField fs k' v) k = lookupField fs k := by
  unfold setField
  cases hany : fs.any (fun p => decide (p.1 = k')) with
  | true =>
    rw [if_pos rfl]
    exact lookup_map_replace_ne fs k k' v h
  | false =>
    rw [if_neg (by simp)]
    exact lookup_append_single_ne fs k k' v h

theorem setField_hasKey_self (fs : List (String × JValue)) (k : String)
    (v : JValue) : hasKey (setField fs k v) k = true := by
  unfold setField
  cases hany : fs.any (fun p => decide (p.1 = k)) with
  | true =>
    rw [if_pos rfl]
    rcases List.any_eq_true.mp hany with ⟨p, hmem, hp⟩
    refine List.any_eq_true.mpr ⟨(k, v), ?_, by simp⟩
    exact List.mem_map.mpr ⟨p, hmem, if_pos (of_decide_eq_true hp)⟩
  | false =>
    rw [if_neg (by simp)]
    exact List.any_eq_true.mpr ⟨(k, v), by simp, by simp⟩

theorem setField_hasKey_preserve (fs : List (String × JValue)) (k k' : String)
    (v' : JValue) (h : hasKey fs k = true) :
    hasKey (setField fs k' v') k = true := by
  unfold setField
  rcases List.any_eq_true.mp h with ⟨p, hmem, hp⟩
  have hpk : p.1 = k := of_decide_eq_true hp
  cases hany : fs.any (fun p => decide (p.1 = k')) with
  | true =>
    rw [if_pos rfl]
    by_cases hpp : p.1 = k'
    · refine List.any_eq_true.mpr ⟨(k', v'), ?_, ?_⟩
      · exact List.mem_map.mpr ⟨p, hmem, if_pos hpp⟩
      · simp [← hpp, hpk]
    · refine List.any_eq_true.mpr ⟨p, ?_, hp⟩
      exact List.mem_map.mpr ⟨p, hmem, if_neg hpp⟩
  | false =>
    rw [if_neg (by simp)]
    exact List.any_eq_true.mpr ⟨p, List.mem_append_left _ hmem, hp⟩

theorem setField_entries_self (fs : List (String × JValue)) (k : String)
    (v : JValue) : ∀ p ∈ setField fs k v, p.1 = k → p.2 = v := by
  unfold setField
  cases hany : fs.any (fun p => decide (p.1 = k)) with
  | true =>
    rw [if_pos rfl]
    intro p hmem hpk
    rcases List.mem_map.mp hmem with ⟨q, hq, hfq⟩
    by_cases hqk : q.1 = k
    · rw [if_pos hqk] at hfq
      rw [← hfq]
    · rw [if_neg hqk] at hfq
      rw [← hfq] at hpk
      exact absurd hpk hqk
  | false =>
    rw [if_neg (by simp)]
    intro p hmem hpk
    rcases List.mem_append.mp hmem with hin | hin
    · have : ∀ q ∈ fs, ¬(q.1 = k) := by
        intro q hq
        have := List.any_eq_false.mp hany q hq
        simpa using this
      exact absurd hpk (this p hin)
    · rcases List.mem_singleton.mp hin with rfl
      rfl

theorem setField_entries_preserve (fs : List (String × JValue)) (k k' : String)
    (v v' : JValue) (hne : k ≠ k') (h : ∀ p ∈ fs, p.1 = k → p.2 = v) :
    ∀ p ∈ setField fs k' v', p.1 = k → p.2 = v := by
  unfold setField
  cases hany : fs.any (fun p => decide (p.1 = k')) with
  | true =>
    rw [if_pos rfl]
    intro p hmem hpk
    rcases List.mem_map.mp hmem with ⟨q, hq, hfq⟩
    by_cases hqk : q.1 = k'
    · rw [if_pos hqk] at hfq
      rw [← hfq] at hpk
      exact absurd hpk.symm hne
    · rw [if_neg hqk] at hfq
      rw [← hfq] at hpk ⊢
      exact h q hq hpk
  | false =>
    rw [if_neg (by simp)]
    intro p hmem hpk
    rcases List.mem_append.mp hmem with hin | hin
    · exact h p hin hpk
    · rcases List.mem_singleton.mp hin with rfl
      exact absurd hpk (Ne.symm hne)

theorem setField_eq_self (fs : List (String × JValue)) (k : String) (v : JValue)
    (hany : hasKey fs k = true) (h : ∀ p ∈ fs, p.1 = k → p.2 = v) :
    setField fs k v = fs := by
  unfold hasKey at hany
  unfold setField
  rw [if_pos hany]
  have hid : ∀ p ∈ fs, (if p.1 = k then ((k, v) : String × JValue) else p) = p := by
    intro p hp
    by_cases hpk : p.1 = k
    · rw [if_pos hpk]
      have h2 : p.2 = v := h p hp hpk
      cases p
      simp only at hpk h2
      rw [hpk, h2]
    · exact if_neg hpk
  calc fs.map (fun p => if p.1 = k then (k, v) else p) = fs.map id := by
        exact List.map_congr_left hid
    _ = fs := List.map_id fs

theorem parseJsonField_not_str (w : JValue) (h : isStrVal (some w) = false) :
    parseJsonField (some w) = some w := by
  cases w <;> first
    | rfl
    | (exact absurd h (by simp [isStrVal]))

theorem jsTruthy_jsOr (a : Option JValue) (d : JValue)
    (hd : jsTruthy d = true) : jsTruthy (jsOr a d) = true := by
  rcases a with _ | v
  · exact hd
  · cases hv : jsTruthy v with
    | true => simp [jsOr, hv]
    | false => simpa [jsOr, hv] using hd

theorem jsOr_of_truthy (w d : JValue) (h : jsTruthy w = true) :
    jsOr (some w) d = w := by
  simp [jsOr, h]

theorem jsOr_stable (a : Option JValue) (d : JValue)
    (hd : jsTruthy d = true) (hs : isStrVal (some (jsOr a d)) = false) :
    jsOr (parseJsonField (some (jsOr a d))) d = jsOr a d := by
  rw [parseJsonField_not_str _ hs]
  exact jsOr_of_truthy _ _ (jsTruthy_jsOr a d hd)

theorem imagesValue_stable (o : Option JValue) :
    imagesValue (parseJsonField (some (imagesValue o))) = imagesValue o := by
  rcases o with _ | v
  · rfl
  · cases v <;> rfl

/-- Running the field-level normalizer a second time on its own output
changes nothing, provided none of the five `||`-defaulted fields ended up
holding a string (a string would be fed to `JSON.parse` again). -/
theorem normalize_chain_fixpoint (fs gs : List (String × JValue))
    (p1 p2 p3 p4 p5 p6 : Option JValue)
    (hg : gs =
      setField
        (setField
          (setField
            (setField
              (setField
                (setField fs "images" (imagesValue p1))
                "breadcrumbs" (jsOr p2 breadcrumbsDefault))
              "benefits" (jsOr p3 (.arr [])))
            "shipping" (jsOr p4 (.obj [])))
          "pickup" (jsOr p5 (.obj [])))
        "specs" (jsOr p6 specsDefault))
    (hbc : isStrVal (lookupField gs "breadcrumbs") = false)
    (hbn : isStrVal (lookupField gs "benefits") = false)
    (hsh : isStrVal (lookupField gs "shipping") = false)
    (hpu : isStrVal (lookupField gs "pickup") = false)
    (hsp : isStrVal (lookupField gs "specs") = false) :
    normalizeFields gs = gs := by
  have l1 : lookupField gs "images" = some (imagesValue p1) := by
    rw [hg,
      lookupField_setField_ne _ "images" "specs" _ (by decide),
      lookupField_setField_ne _ "images" "pickup" _ (by decide),
      lookupField_setField_ne _ "images" "shipping" _ (by decide),
      lookupField_setField_ne _ "images" "benefits" _ (by decide),
      lookupField_setField_ne _ "images" "breadcrumbs" _ (by decide),
      lookupField_setField_self]
  have l2 : lookupField gs "breadcrumbs" = some (jsOr p2 breadcrumbsDefault) := by
    rw [hg,
      lookupField_setField_ne _ "breadcrumbs" "specs" _ (by decide),
      lookupField_setField_ne _ "breadcrumbs" "pickup" _ (by decide),
      lookupField_setField_ne _ "breadcrumbs" "shipping" _ (by decide),
      lookupField_setField_ne _ "breadcrumbs" "benefits" _ (by decide),
      lookupField_setField_self]
  have l3 : lookupField gs "benefits" = some (jsOr p3 (.arr [])) := by
    rw [hg,
      lookupField_setField_ne _ "benefits" "specs" _ (by decide),
      lookupField_setField_ne _ "benefits" "pickup" _ (by decide),
      lookupField_setField_ne _ "benefits" "shipping" _ (by decide),
      lookupField_setField_self]
  have l4 : lookupField gs "shipping" = some (jsOr p4 (.obj [])) := by
    rw [hg,
      lookupField_setField_ne _ "shipping" "specs" _ (by decide),
      lookupField_setField_ne _ "shipping" "pickup" _ (by decide),
      lookupField_setField_self]
  have l5 : lookupField gs "pickup" = some (jsOr p5 (.obj [])) := by
    rw [hg,
      lookupField_setField_ne _ "pickup" "specs" _ (by decide),
      lookupField_setField_self]
  have l6 : lookupField gs "specs" = some (jsOr p6 specsDefault) := by
    rw [hg, lookupField_setField_self]
  have a1 : hasKey gs "images" = true := by
    rw [hg]
    exact setField_hasKey_preserve _ _ _ _ (setField_hasKey_preserve _ _ _ _
      (setField_hasKey_preserve _ _ _ _ (setField_hasKey_preserve _ _ _ _
        (setField_hasKey_preserve _ _ _ _ (setField_hasKey_self _ _ _)))))
  have a2 : hasKey gs "breadcrumbs" = true := by
    rw [hg]
    exact setField_hasKey_preserve _ _ _ _ (setField_hasKey_preserve _ _ _ _
      (setField_hasKey_preserve _ _ _ _ (setField_hasKey_preserve _ _ _ _
        (setField_hasKey_self _ _ _))))
  have a3 : hasKey gs "benefits" = true := by
    rw [hg]
    exact setField_hasKey_preserve _ _ _ _ (setField_hasKey_preserve _ _ _ _
      (setField_hasKey_preserve _ _ _ _ (setField_hasKey_self _ _ _)))
  have a4 : hasKey gs "shipping" = true := by
    rw [hg]
    exact setField_hasKey_preserve _ _ _ _ (setField_hasKey_preserve _ _ _ _
      (setField_hasKey_self _ _ _))
  have a5 : hasKey gs "pickup" = true := by
    rw [hg]
    exact setField_hasKey_preserve _ _ _ _ (setField_hasKey_self _ _ _)
  have a6 : hasKey gs "specs" = true := by
    rw [hg]
    exact setField_hasKey_self _ _ _
  have e1 : ∀ p ∈ gs, p.1 = "images" → p.2 = imagesValue p1 := by
    rw [hg]
    exact setField_entries_preserve _ _ "specs" _ _ (by decide)
      (setField_entries_preserve _ _ "pickup" _ _ (by decide)
        (setField_entries_preserve _ _ "shipping" _ _ (by decide)
          (setField_entries_preserve _ _ "benefits" _ _ (by decide)
            (setField_entries_preserve _ _ "breadcrumbs" _ _ (by decide)
              (setField_entries_self _ _ _)))))
  have e2 : ∀ p ∈ gs, p.1 = "breadcrumbs" → p.2 = jsOr p2 breadcrumbsDefault := by
    rw [hg]
    exact setField_entries_preserve _ _ "specs" _ _ (by decide)
      (setField_entries_preserve _ _ "pickup" _ _ (by decide)
        (setField_entries_preserve _ _ "shipping" _ _ (by decide)
          (setField_entries_preserve _ _ "benefits" _ _ (by decide)
            (setField_entries_self _ _ _))))
  have e3 : ∀ p ∈ gs, p.1 = "benefits" → p.2 = jsOr p3 (.arr []) := by
    rw [hg]
    exact setField_entries_preserve _ _ "specs" _ _ (by decide)
      (setField_entries_preserve _ _ "pickup" _ _ (by decide)
        (setField_entries_preserve _ _ "shipping" _ _ (by decide)
          (setField_entries_self _ _ _)))
  have e4 : ∀ p ∈ gs, p.1 = "shipping" → p.2 = jsOr p4 (.obj []) := by
    rw [hg]
    exact setField_entries_preserve _ _ "specs" _ _ (by decide)
      (setField_entries_preserve _ _ "pickup" _ _ (by decide)
        (setField_entries_self _ _ _))
  have e5 : ∀ p ∈ gs, p.1 = "pickup" → p.2 = jsOr p5 (.obj []) := by
    rw [hg]
    exact setField_entries_preserve _ _ "specs" _ _ (by decide)
      (setField_entries_self _ _ _)
  have e6 : ∀ p ∈ gs, p.1 = "specs" → p.2 = jsOr p6 specsDefault := by
    rw [hg]
    exact setField_entries_self _ _ _
  rw [l2] at hbc
  rw [l3] at hbn
  rw [l4] at hsh
  rw [l5] at hpu
  rw [l6] at hsp
  unfold normalizeFields
  rw [l1, l2, l3, l4, l5, l6]
  rw [imagesValue_stable p1, jsOr_stable p2 breadcrumbsDefault rfl hbc,
    jsOr_stable p3 (JValue.arr []) rfl hbn, jsOr_stable p4 (JValue.obj []) rfl hsh,
    jsOr_stable p5 (JValue.obj []) rfl hpu, jsOr_stable p6 specsDefault rfl hsp]
  rw [setField_eq_self gs "images" _ a1 e1,
    setField_eq_self gs "breadcrumbs" _ a2 e2,
    setField_eq_self gs "benefits" _ a3 e3,
    setField_eq_self gs "shipping" _ a4 e4,
    setField_eq_self gs "pickup" _ a5 e5,
    setField_eq_self gs "specs" _ a6 e6]

/-- C3 (amended): for every raw input whose JavaScript type is not
`'object'` or that is `null` — so `null`, numbers such as `42`, strings
such as `"x"`, booleans, but NOT arrays, since `typeof [] === 'object'` —
`transformProduct` returns the fixed fallback Product, whose `id` is 0,
whose `title` is `"Invalid Product"`, and whose images, breadcrumbs path,
benefits and specs collections are all empty; being a total function of
the embedding, it never throws. -/
theorem transformProduct_fallback_for_non_objects (p : JValue)
    (h : isJsObjectLike p = false) :
    transformProduct p = fallbackProduct ∧
    getField fallbackProduct "id" = some (.num 0) ∧
    getField fallbackProduct "title" = some (.str "Invalid Product") ∧
    getField fallbackProduct "images" = some (.arr []) ∧
    getField fallbackProduct "breadcrumbs" = some (.obj [("path", .arr [])]) ∧
    getField fallbackProduct "benefits" = some (.arr []) ∧
    getField fallbackProduct "specs" =
      some (.obj [("highlighted", .arr []), ("featureGroups", .arr [])]) := by
  refine ⟨?_, rfl, rfl, rfl, rfl, rfl, rfl⟩
  simp [transformProduct, h]

/-- Witness for C3 (amended) at the concrete non-object input `null`. -/
theorem transformProduct_fallback_witness :
    transformProduct JValue.null = fallbackProduct ∧
    getField fallbackProduct "id" = some (.num 0) ∧
    getField fallbackProduct "title" = some (.str "Invalid Product") ∧
    getField fallbackProduct "images" = some (.arr []) ∧
    getField fallbackProduct "breadcrumbs" = some (.obj [("path", .arr [])]) ∧
    getField fallbackProduct "benefits" = some (.arr []) ∧
    getField fallbackProduct "specs" =
      some (.obj [("highlighted", .arr []), ("featureGroups", .arr [])]) :=
  transformProduct_fallback_for_non_objects JValue.null rfl

/-- C3 counterexample: the empty array is NOT mapped to the fallback
Product — `typeof [] === 'object'`, so `[]` passes the guard and is
normalized field-by-field, producing an object with no `id` and no
`title` at all. -/
theorem transformProduct_array_not_fallback :
    transformProduct (JValue.arr []) ≠ fallbackProduct ∧
    getField (transformProduct (JValue.arr [])) "id" = none ∧
    getField (transformProduct (JValue.arr [])) "title" = none := by
  refine ⟨?_, rfl, rfl⟩
  intro h
  have h2 : getField (transformProduct (JValue.arr [])) "id" =
      getField fallbackProduct "id" := by rw [h]
  rw [show getField (transformProduct (JValue.arr [])) "id" = none from rfl] at h2
  rw [show getField fallbackProduct "id" = some (JValue.num 0) from rfl] at h2
  exact Option.noConfusion h2

/-- C4 counterexample: the normalizer is not idempotent. For the raw
object with field `breadcrumbs` holding the five-character JSON text
`"x"` (a JSON-encoded string), the first pass parses it to the string
`x`, and the second pass feeds that string to `JSON.parse` again, fails,
and replaces it by the default breadcrumbs object. -/
theorem transformProduct_not_idempotent :
    transformProduct (transformProduct (JValue.obj [("breadcrumbs", JValue.str "\"x\"")])) ≠
      transformProduct (JValue.obj [("breadcrumbs", JValue.str "\"x\"")]) := by
  intro h
  have h2 : getField (transformProduct (transformProduct
        (JValue.obj [("breadcrumbs", JValue.str "\"x\"")]))) "breadcrumbs" =
      getField (transformProduct
        (JValue.obj [("breadcrumbs", JValue.str "\"x\"")])) "breadcrumbs" := by
    rw [h]
  rw [show getField (transformProduct (transformProduct
        (JValue.obj [("breadcrumbs", JValue.str "\"x\"")]))) "breadcrumbs" =
      some (JValue.obj [("path", JValue.arr [])]) from rfl] at h2
  rw [show getField (transformProduct
        (JValue.obj [("breadcrumbs", JValue.str "\"x\"")])) "breadcrumbs" =
      some (JValue.str "x") from rfl] at h2
  injection h2 with h3
  exact JValue.noConfusion h3

/-- C4 (amended): applying the product normalizer twice gives the same
result as applying it once for every raw input on which the single
normalization leaves no string value in any of the five `||`-defaulted
fields (`breadcrumbs`, `benefits`, `shipping`, `pickup`, `specs`); in
particular for every already-structured raw product. The law fails in
general only when a field is a JSON-encoded string literal. -/
theorem transformProduct_idempotent_conditional (raw : JValue)
    (h : ∀ k ∈ (["breadcrumbs", "benefits", "shipping", "pickup", "specs"] :
        List String),
      isStrVal (getField (transformProduct raw) k) = false) :
    transformProduct (transformProduct raw) = transformProduct raw := by
  cases hobj : isJsObjectLike raw with
  | false =>
    have h1 : transformProduct raw = fallbackProduct := by
      simp [transformProduct, hobj]
    rw [h1]
    rfl
  | true =>
    have h1 : transformProduct raw = .obj (normalizeFields (objFieldsOf raw)) := by
      simp [transformProduct, hobj]
    rw [h1] at h ⊢
    have h2 : transformProduct (.obj (normalizeFields (objFieldsOf raw))) =
        .obj (normalizeFields (normalizeFields (objFieldsOf raw))) := by
      simp [transformProduct, isJsObjectLike, objFieldsOf]
    rw [h2]
    refine congrArg JValue.obj ?_
    apply normalize_chain_fixpoint (objFieldsOf raw)
      (normalizeFields (objFieldsOf raw))
      (parseJsonField (lookupField (objFieldsOf raw) "images"))
      (parseJsonField (lookupField (objFieldsOf raw) "breadcrumbs"))
      (parseJsonField (lookupField (objFieldsOf raw) "benefits"))
      (parseJsonField (lookupField (objFieldsOf raw) "shipping"))
      (parseJsonField (lookupField (objFieldsOf raw) "pickup"))
      (parseJsonField (lookupField (objFieldsOf raw) "specs"))
      rfl
    · simpa [getField] using h "breadcrumbs" (by simp)
    · simpa [getField] using h "benefits" (by simp)
    · simpa [getField] using h "shipping" (by simp)
    · simpa [getField] using h "pickup" (by simp)
    · simpa [getField] using h "specs" (by simp)

/-- Witness for C4 (amended) at the concrete input `null` (whose
normalization is the fallback Product, which has no string fields). -/
theorem transformProduct_idempotent_witness :
    transformProduct (transformProduct JValue.null) = transformProduct JValue.null :=
  transformProduct_idempotent_conditional JValue.null (by decide)

/-- C7 (amended): on a success body that is a non-null object with a
`data` field holding a non-null value, the fetcher returns that value
unwrapped; when `data` is absent, when `data` is `null` (since `??` only
skips null-ish values), or when the body is a non-null non-object, the
body itself is returned; a `null` body makes the property read throw. -/
theorem fetcherUnwrap_amended :
    (∀ fields v, lookupField fields "data" = some v → v ≠ JValue.null →
      fetcherUnwrap (.obj fields) = .ok v) ∧
    (∀ fields, lookupField fields "data" = some JValue.null →
      fetcherUnwrap (.obj fields) = .ok (.obj fields)) ∧
    (∀ fields, lookupField fields "data" = none →
      fetcherUnwrap (.obj fields) = .ok (.obj fields)) ∧
    (∀ b : Bool, fetcherUnwrap (.bool b) = .ok (.bool b)) ∧
    (∀ q : Rat, fetcherUnwrap (.num q) = .ok (.num q)) ∧
    (∀ s : String, fetcherUnwrap (.str s) = .ok (.str s)) ∧
    (∀ xs : List JValue, fetcherUnwrap (.arr xs) = .ok (.arr xs)) ∧
    (∃ e, fetcherUnwrap JValue.null = .error e) := by
  refine ⟨?_, ?_, ?_, fun b => rfl, fun q => rfl, fun s => rfl,
    fun xs => rfl, ⟨_, rfl⟩⟩
  · intro fields v hl hv
    cases v with
    | null => exact absurd rfl hv
    | bool b => simp [fetcherUnwrap, hl]
    | num q => simp [fetcherUnwrap, hl]
    | str s => simp [fetcherUnwrap, hl]
    | arr xs => simp [fetcherUnwrap, hl]
    | obj gs => simp [fetcherUnwrap, hl]
  · intro fields hl
    simp [fetcherUnwrap, hl]
  · intro fields hl
    simp [fetcherUnwrap, hl]

/-- Witness for C7 (amended): a wrapped body `\x7bdata: 5\x7d` unwraps to 5. -/
theorem fetcherUnwrap_amended_witness :
    fetcherUnwrap (.obj [("data", JValue.num 5)]) = .ok (JValue.num 5) :=
  fetcherUnwrap_amended.1 [("data", JValue.num 5)] (JValue.num 5) rfl
    (fun hh => JValue.noConfusion hh)

/-- C7 counterexample: for the envelope `\x7bdata: null\x7d` — an object
exposing a `data` field — the fetcher does NOT return the field's value
(`null`): `result.data ?? result` treats the null field as absent and
returns the whole envelope, which is not `null`. -/
theorem fetcherUnwrap_data_null_returns_envelope :
    fetcherUnwrap (.obj [("data", JValue.null)]) =
      .ok (.obj [("data", JValue.null)]) ∧
    JValue.obj [("data", JValue.null)] ≠ JValue.null :=
  ⟨rfl, fun hh => JValue.noConfusion hh⟩

/-- A product variant as used by `handleVariantChange` (App.tsx): an id
and an attribute map (key/value strings). -/
structure Variant where
  id : Int
  attributes : List (String × String)
  deriving DecidableEq, Repr

/-- Attribute read `v.attributes[key]` (`none` models `undefined`). -/
def lookupAttr : List (String × String) → String → Option String
  | [], _ => none
  | (k, v) :: rest, key => if k = key then some v else lookupAttr rest key

/-- Spread update `\x7b...currentVariant.attributes, [attribute]: value\x7d`
(App.tsx:159): overwrite in place when present, append otherwise. -/
def setAttr (m : List (String × String)) (key value : String) :
    List (String × String) :=
  if m.any (fun p => decide (p.1 = key)) then
    m.map (fun p => if p.1 = key then (key, value) else p)
  else
    m ++ [(key, value)]

/-- The primary-match predicate of App.tsx:162-164:
`Object.keys(newAttributes).every(key => v.attributes[key] === newAttributes[key])`. -/
def primaryMatches (cand : List (String × String)) (v : Variant) : Bool :=
  cand.all (fun p => decide (lookupAttr v.attributes p.1 = some p.2))

/-- Failure of the variant resolution step; per the spec's error taxonomy
the early return of `handleVariantChange` when `selectedVariantId` matches
no variant is the `NoCurrentVariant` caller-bug signal. -/
inductive VariantError where
  | NoCurrentVariant
  deriving DecidableEq, Repr

/-- The variant resolution core of `handleVariantChange` (App.tsx:152-174):
find the current variant by id (early return — modelled as the
`NoCurrentVariant` failure — when absent); build the candidate attribute
map; try the full primary match; fall back to the first variant matching
only the changed attribute; fall back to the current variant itself.
The caller-side effects (`setSelectedVariantId`, quantity reset) are not
part of the resolution result. -/
def handleVariantChange (variants : List Variant) (currentVariantId : Int)
    (attrKey value : String) : Except VariantError Variant :=
  match variants.find? (fun v => decide (v.id = currentVariantId)) with
  | none => .error .NoCurrentVariant
  | some currentVariant =>
    let newAttributes := setAttr currentVariant.attributes attrKey value
    match variants.find? (fun v => primaryMatches newAttributes v) with
    | some newVariant => .ok newVariant
    | none =>
      match variants.find?
          (fun v => decide (lookupAttr v.attributes attrKey = some value)) with
      | some newVariant => .ok newVariant
      | none => .ok currentVariant

/-- C1: when the current variant id resolves, the candidate attribute map
is the current variant's attributes with the changed attribute
overwritten, and if exactly one variant agrees with the candidate map on
every key (the unchanged ones included), the resolution returns that
variant. -/
theorem handleVariantChange_primary_match (variants : List Variant)
    (currentVariantId : Int) (attrKey value : String)
    (currentVariant w : Variant)
    (hcur : variants.find? (fun v => decide (v.id = currentVariantId)) =
      some currentVariant)
    (hw : w ∈ variants)
    (hmatch : primaryMatches (setAttr currentVariant.attributes attrKey value)
      w = true)
    (huniq : ∀ u ∈ variants,
      primaryMatches (setAttr currentVariant.attributes attrKey value) u =
        true → u = w) :
    handleVariantChange variants currentVariantId attrKey value = .ok w := by
  simp only [handleVariantChange, hcur]
  cases hfind : variants.find?
      (fun v => primaryMatches (setAttr currentVariant.attributes attrKey value) v) with
  | none =>
    exact absurd hmatch (by simpa using List.find?_eq_none.mp hfind w hw)
  | some u =>
    rw [huniq u (List.mem_of_find?_eq_some hfind) (List.find?_some hfind)]

/-- Witness for C1 at the spec's P4 input: variants
1:(color A, ram 8), 2:(color A, ram 16), 3:(color B, ram 8); current 1;
change ram to 16; resolves to variant 2. -/
theorem handleVariantChange_primary_match_witness :
    handleVariantChange
      [⟨1, [("color", "A"), ("ram", "8")]⟩,
       ⟨2, [("color", "A"), ("ram", "16")]⟩,
       ⟨3, [("color", "B"), ("ram", "8")]⟩] 1 "ram" "16" =
      .ok ⟨2, [("color", "A"), ("ram", "16")]⟩ :=
  handleVariantChange_primary_match
    [⟨1, [("color", "A"), ("ram", "8")]⟩,
     ⟨2, [("color", "A"), ("ram", "16")]⟩,
     ⟨3, [("color", "B"), ("ram", "8")]⟩] 1 "ram" "16"
    ⟨1, [("color", "A"), ("ram", "8")]⟩ ⟨2, [("color", "A"), ("ram", "16")]⟩
    (by decide) (by decide) (by decide) (by decide)

/-- C2: when the current variant id resolves but no variant passes the
primary (full-candidate-map) match, the resolution returns the first
variant in list order whose value at the changed attribute equals the new
value, and the current variant itself when none does — an `.ok` result in
every case, never an undefined selection. -/
theorem handleVariantChange_fallback_match (variants : List Variant)
    (currentVariantId : Int) (attrKey value : String) (currentVariant : Variant)
    (hcur : variants.find? (fun v => decide (v.id = currentVariantId)) =
      some currentVariant)
    (hnoprimary : variants.find?
      (fun v => primaryMatches (setAttr currentVariant.attributes attrKey value) v) =
      none) :
    handleVariantChange variants currentVariantId attrKey value =
      .ok ((variants.find?
        (fun v => decide (lookupAttr v.attributes attrKey = some value))).getD
        currentVariant) := by
  simp only [handleVariantChange, hcur, hnoprimary]
  cases hfb : variants.find?
      (fun v => decide (lookupAttr v.attributes attrKey = some value)) with
  | none => rfl
  | some u => rfl

/-- Witness for C2 at the spec's P5 input: variants
1:(color A, ram 8), 2:(color B, ram 16); current 1; change color to B;
no full match exists (ram stays 8), so the first variant with color B —
variant 2 — is chosen. -/
theorem handleVariantChange_fallback_match_witness :
    handleVariantChange
      [⟨1, [("color", "A"), ("ram", "8")]⟩,
       ⟨2, [("color", "B"), ("ram", "16")]⟩] 1 "color" "B" =
      .ok ⟨2, [("color", "B"), ("ram", "16")]⟩ :=
  (handleVariantChange_fallback_match
    [⟨1, [("color", "A"), ("ram", "8")]⟩,
     ⟨2, [("color", "B"), ("ram", "16")]⟩] 1 "color" "B"
    ⟨1, [("color", "A"), ("ram", "8")]⟩ (by decide) (by decide)).trans rfl

/-- C8: when `currentVariantId` matches no variant in the list, the
resolution step fails with `NoCurrentVariant` (the handler's early
return; a caller-bug signal, not user-facing) instead of completing with
a variant. -/
theorem handleVariantChange_no_current (variants : List Variant)
    (currentVariantId : Int) (attrKey value : String)
    (h : ∀ v ∈ variants, v.id ≠ currentVariantId) :
    handleVariantChange variants currentVariantId attrKey value =
      .error .NoCurrentVariant := by
  have hfind : variants.find? (fun v => decide (v.id = currentVariantId)) = none :=
    List.find?_eq_none.mpr (by intro v hv; simpa using h v hv)
  simp [handleVariantChange, hfind]

/-- Witness for C8: id 99 matches no variant. -/
theorem handleVariantChange_no_current_witness :
    handleVariantChange [⟨1, [("color", "A")]⟩] 99 "color" "A" =
      .error .NoCurrentVariant :=
  handleVariantChange_no_current [⟨1, [("color", "A")]⟩] 99 "color" "A" (by decide)

/-- A per-currency pricing record (`selectedVariant.pricing[currency]`):
`price` and `originalPrice` as possibly-absent numbers (`none` models
null/undefined); the installments block is irrelevant to the discount. -/
structure Pricing where
  price : Option Rat
  originalPrice : Option Rat
  deriving DecidableEq, Repr

/-- JavaScript truthiness of a possibly-absent number: absent (null or
undefined) and zero are falsy. -/
def jsTruthyNum : Option Rat → Bool
  | none => false
  | some q => q != 0

/-- `Math.round`: the nearest integer, ties rounding toward positive
infinity, i.e. the floor of `q + 1/2`. -/
def mathRound (q : Rat) : Int := Int.floor (q + 1 / 2)

/-- The discount computation of `ProductOfferInfo` (lines 75-77):
`originalPrice && price ? Math.round(((originalPrice - price) / originalPrice) * 100) : 0`. -/
def discountPercent (pricing : Pricing) : Int :=
  if jsTruthyNum pricing.originalPrice && jsTruthyNum pricing.price then
    mathRound ((pricing.originalPrice.getD 0 - pricing.price.getD 0) /
      pricing.originalPrice.getD 0 * 100)
  else 0

/-- Rounding to the nearest integer, half away from zero — the rounding
mode named by the spec, written from its words for comparison with the
code's `Math.round`. -/
def roundHalfAwayFromZero (q : Rat) : Int :=
  if 0 ≤ q then Int.floor (q + 1 / 2) else -Int.floor (-q + 1 / 2)

/-- C5 (amended): in the meaningful-discount regime — both fields
present, `0 < price ≤ originalPrice` — the displayed discount percent is
round(((originalPrice − price) / originalPrice) × 100) and the two
rounding modes agree, and an absent `originalPrice` gives 0. Outside
that regime the code differs from the claim: it tests JavaScript
truthiness (so a present-but-zero price yields 0), and `Math.round`
rounds half-up rather than half-away-from-zero on negative values. -/
theorem discountPercent_meaningful (p op : Rat) (hp : 0 < p) (hple : p ≤ op) :
    discountPercent ⟨some p, some op⟩ =
      roundHalfAwayFromZero ((op - p) / op * 100) ∧
    discountPercent ⟨some p, none⟩ = 0 := by
  constructor
  · have hop : 0 < op := lt_of_lt_of_le hp hple
    have htp : jsTruthyNum (some p) = true := bne_iff_ne.mpr hp.ne'
    have htop : jsTruthyNum (some op) = true := bne_iff_ne.mpr hop.ne'
    have hx : (0 : Rat) ≤ (op - p) / op * 100 :=
      mul_nonneg (div_nonneg (by linarith) hop.le) (by norm_num)
    simp only [discountPercent, htop, htp, Bool.and_self, eq_self_iff_true,
      if_true, Option.getD_some, roundHalfAwayFromZero, if_pos hx, mathRound]
  · rfl

/-- Witness for C5 (amended): price 800, originalPrice 1000 gives 20%
under both rounding modes, and a missing originalPrice gives 0. -/
theorem discountPercent_meaningful_witness :
    (discountPercent ⟨some 800, some 1000⟩ =
        roundHalfAwayFromZero (((1000 : Rat) - 800) / 1000 * 100) ∧
      discountPercent ⟨some 800, none⟩ = 0) ∧
    discountPercent ⟨some 800, some 1000⟩ = 20 :=
  ⟨discountPercent_meaningful 800 1000 (by norm_num) (by norm_num), by
    have h1000 : jsTruthyNum (some (1000 : Rat)) = true :=
      bne_iff_ne.mpr (by norm_num)
    have h800 : jsTruthyNum (some (800 : Rat)) = true :=
      bne_iff_ne.mpr (by norm_num)
    simp only [discountPercent, h1000, h800, Bool.and_self, eq_self_iff_true,
      if_true, Option.getD_some, mathRound]
    norm_num⟩

/-- C5 counterexample: two Pricing records satisfying the claim's guard
(both fields present, originalPrice > 0) where the code's value differs
from the claimed round-half-away-from-zero formula: price 144 with
originalPrice 128 gives −12.5%, which `Math.round` takes to −12 but the
claimed rounding to −13; and a present-but-zero price is falsy, so the
code returns 0 where the claimed formula gives 100. -/
theorem discountPercent_counterexample :
    discountPercent ⟨some 144, some 128⟩ ≠
      roundHalfAwayFromZero (((128 : Rat) - 144) / 128 * 100) ∧
    discountPercent ⟨some 0, some 1000⟩ ≠
      roundHalfAwayFromZero (((1000 : Rat) - 0) / 1000 * 100) := by
  have h128 : jsTruthyNum (some (128 : Rat)) = true := bne_iff_ne.mpr (by norm_num)
  have h144 : jsTruthyNum (some (144 : Rat)) = true := bne_iff_ne.mpr (by norm_num)
  have hz : jsTruthyNum (some (0 : Rat)) = false := by simp [jsTruthyNum]
  have e1 : discountPercent ⟨some 144, some 128⟩ = -12 := by
    simp only [discountPercent, h128, h144, Bool.and_self, eq_self_iff_true,
      if_true, Option.getD_some, mathRound]
    norm_num
  have e2 : roundHalfAwayFromZero (((128 : Rat) - 144) / 128 * 100) = -13 := by
    rw [roundHalfAwayFromZero, if_neg (by norm_num)]
    norm_num
  have e3 : discountPercent ⟨some 0, some 1000⟩ = 0 := by
    simp [discountPercent, hz]
  have e4 : roundHalfAwayFromZero (((1000 : Rat) - 0) / 1000 * 100) = 100 := by
    rw [roundHalfAwayFromZero, if_pos (by norm_num)]
    norm_num
  refine ⟨by rw [e1, e2]; decide, by rw [e3, e4]; decide⟩

/-- A question/answer entry (`QA` in src/lib/types.ts): an id, the
question text, the answer text or null (pending), and whether the entry
was created locally by the user. -/
structure QA where
  id : Int
  question : String
  answer : Option String
  isUserGenerated : Bool
  deriving DecidableEq, Repr

/-- `handleAddQuestion` (App.tsx:180-182):
`setCurrentQuestions(prev => [newQuestion, ...prev])`. -/
def handleAddQuestion (newQuestion : QA) (prev : List QA) : List QA :=
  newQuestion :: prev

/-- `handleUpdateQuestionAnswer` (App.tsx:189-193):
`prev.map(q => q.id === questionId ? \x7b...q, answer\x7d : q)`. -/
def handleUpdateQuestionAnswer (questionId : Int) (answer : String)
    (prev : List QA) : List QA :=
  prev.map (fun q => if q.id = questionId then { q with answer := some answer }
    else q)

/-- `handleDeleteQuestion` (App.tsx:199-201):
`prev.filter(q => q.id !== questionId)`. -/
def handleDeleteQuestion (questionId : Int) (prev : List QA) : List QA :=
  prev.filter (fun q => decide (q.id ≠ questionId))

theorem countP_id_eq_one (prev : List QA) (T : Int)
    (hT : T ∈ prev.map QA.id) (hnodup : (prev.map QA.id).Nodup) :
    prev.countP (fun e => decide (e.id = T)) = 1 := by
  induction prev with
  | nil => simp at hT
  | cons x rest ih =>
    simp only [List.map_cons, List.nodup_cons] at hnodup
    simp only [List.map_cons, List.mem_cons] at hT
    rcases hT with heq | hmem
    · rw [List.countP_cons_of_pos _ _ (by simp [heq])]
      have hzero : rest.countP (fun e => decide (e.id = T)) = 0 := by
        rw [List.countP_eq_zero]
        intro e he
        simp only [decide_eq_true_eq]
        intro heq2
        refine hnodup.1 ?_
        rw [← heq, ← heq2]
        exact List.mem_map_of_mem QA.id he
      omega
    · rw [List.countP_cons_of_neg _ _ (by
        simp only [decide_eq_true_eq]
        intro heq2
        exact hnodup.1 (heq2 ▸ hmem))]
      exact ih hmem hnodup.2

theorem filter_ne_length (prev : List QA) (T : Int) :
    (prev.filter (fun e => decide (e.id ≠ T))).length +
      prev.countP (fun e => decide (e.id = T)) = prev.length := by
  induction prev with
  | nil => rfl
  | cons x rest ih =>
    by_cases hx : x.id = T
    · rw [List.filter_cons_of_neg (by simp [hx]),
        List.countP_cons_of_pos _ _ (by simp [hx])]
      simp only [List.length_cons]
      omega
    · rw [List.filter_cons_of_pos (by simp [hx]),
        List.countP_cons_of_neg _ _ (by simp [hx])]
      simp only [List.length_cons]
      omega

/-- C9: for a question list containing id `T` exactly once (local ids are
unique): adding a question with a null answer prepends exactly that entry;
update-answer(T, a) keeps the length and rewrites position `i` to the
same entry with answer `a` when its id is `T` and to the unchanged entry
otherwise; delete(T) yields a sublist of the original (relative order
preserved) that contains an original entry iff its id is not `T`, and
removes exactly one entry. -/
theorem question_lifecycle (prev : List QA) (q : QA) (T : Int) (a : String)
    (i : Nat) (e : QA)
    (hq : q.answer = none) (hT : T ∈ prev.map QA.id)
    (hnodup : (prev.map QA.id).Nodup) (he : e ∈ prev) :
    (handleAddQuestion q prev = q :: prev ∧ q.answer = none) ∧
    ((handleUpdateQuestionAnswer T a prev).length = prev.length ∧
      (handleUpdateQuestionAnswer T a prev)[i]? =
        (prev[i]?).map (fun x => if x.id = T then { x with answer := some a }
          else x)) ∧
    (List.Sublist (handleDeleteQuestion T prev) prev ∧
      (e ∈ handleDeleteQuestion T prev ↔ e.id ≠ T) ∧
      (handleDeleteQuestion T prev).length + 1 = prev.length) := by
  refine ⟨⟨rfl, hq⟩, ⟨List.length_map prev _, List.getElem?_map _ prev i⟩,
    List.filter_sublist prev, ?_, ?_⟩
  · constructor
    · intro hin
      have := (List.mem_filter.mp hin).2
      simpa using this
    · intro hne
      exact List.mem_filter.mpr ⟨he, by simpa using hne⟩
  · have h1 := countP_id_eq_one prev T hT hnodup
    have h2 := filter_ne_length prev T
    unfold handleDeleteQuestion
    omega

/-- Witness for C9 on the concrete list [(id 5, answered), (id 7,
pending)] with T = 7, added question id 9, answer text "hi", position 1
and frame entry id 5. -/
theorem question_lifecycle_witness :
    (handleAddQuestion ⟨9, "q9", none, true⟩
        [⟨5, "q5", some "a5", false⟩, ⟨7, "q7", none, true⟩] =
      ⟨9, "q9", none, true⟩ ::
        [⟨5, "q5", some "a5", false⟩, ⟨7, "q7", none, true⟩] ∧
      (⟨9, "q9", none, true⟩ : QA).answer = none) ∧
    ((handleUpdateQuestionAnswer 7 "hi"
        [⟨5, "q5", some "a5", false⟩, ⟨7, "q7", none, true⟩]).length =
      ([⟨5, "q5", some "a5", false⟩, ⟨7, "q7", none, true⟩] : List QA).length ∧
      (handleUpdateQuestionAnswer 7 "hi"
        [⟨5, "q5", some "a5", false⟩, ⟨7, "q7", none, true⟩])[1]? =
        (([⟨5, "q5", some "a5", false⟩, ⟨7, "q7", none, true⟩] :
          List QA)[1]?).map
          (fun x => if x.id = 7 then { x with answer := some "hi" } else x)) ∧
    (List.Sublist
      (handleDeleteQuestion 7
        [⟨5, "q5", some "a5", false⟩, ⟨7, "q7", none, true⟩])
      [⟨5, "q5", some "a5", false⟩, ⟨7, "q7", none, true⟩] ∧
      ((⟨5, "q5", some "a5", false⟩ : QA) ∈ handleDeleteQuestion 7
        [⟨5, "q5", some "a5", false⟩, ⟨7, "q7", none, true⟩] ↔
        (⟨5, "q5", some "a5", false⟩ : QA).id ≠ 7) ∧
      (handleDeleteQuestion 7
        [⟨5, "q5", some "a5", false⟩, ⟨7, "q7", none, true⟩]).length + 1 =
        ([⟨5, "q5", some "a5", false⟩, ⟨7, "q7", none, true⟩] : List QA).length) :=
  question_lifecycle [⟨5, "q5", some "a5", false⟩, ⟨7, "q7", none, true⟩]
    ⟨9, "q9", none, true⟩ 7 "hi" 1 ⟨5, "q5", some "a5", false⟩
    rfl (by decide) (by decide) (by decide)

/-- Stable insertion into a list sorted by id descending; together with
`sortByIdDesc` this models `questions.sort((a, b) => b.id - a.id)`
(App.tsx:99): an ES2019+ `Array.prototype.sort` is stable, and a stable
descending-by-id sort of a list is unique, so insertion sort is a
faithful embedding of the call. -/
def insertDescQ (x : QA) : List QA → List QA
  | [] => [x]
  | y :: ys => if y.id ≤ x.id then x :: y :: ys else y :: insertDescQ x ys

/-- The descending-by-id sort applied to fetched questions before they
are stored (`setCurrentQuestions(questions.sort((a, b) => b.id - a.id))`). -/
def sortByIdDesc : List QA → List QA
  | [] => []
  | x :: xs => insertDescQ x (sortByIdDesc xs)

theorem insertDescQ_perm (x : QA) (l : List QA) : List.Perm (insertDescQ x l) (x :: l) := by
  induction l with
  | nil => exact List.Perm.refl _
  | cons y ys ih =>
    by_cases h : y.id ≤ x.id
    · simp only [insertDescQ, if_pos h]
      exact List.Perm.refl _
    · simp only [insertDescQ, if_neg h]
      exact (List.Perm.cons y ih).trans (List.Perm.swap x y ys)

theorem insertDescQ_sorted (x : QA) (l : List QA)
    (h : l.Sorted (fun a b => b.id ≤ a.id)) :
    (insertDescQ x l).Sorted (fun a b => b.id ≤ a.id) := by
  induction l with
  | nil => simp [insertDescQ]
  | cons y ys ih =>
    rcases List.sorted_cons.mp h with ⟨hy, hys⟩
    by_cases hxy : y.id ≤ x.id
    · simp only [insertDescQ, if_pos hxy]
      refine List.sorted_cons.mpr ⟨?_, h⟩
      intro b hb
      rcases List.mem_cons.mp hb with rfl | hb2
      · exact hxy
      · exact le_trans (hy b hb2) hxy
    · simp only [insertDescQ, if_neg hxy]
      refine List.sorted_cons.mpr ⟨?_, ih hys⟩
      intro b hb
      have hb2 := (insertDescQ_perm x ys).mem_iff.mp hb
      rcases List.mem_cons.mp hb2 with rfl | hb3
      · exact le_of_not_le hxy
      · exact hy b hb3

theorem sortByIdDesc_perm (l : List QA) : List.Perm (sortByIdDesc l) l := by
  induction l with
  | nil => exact List.Perm.refl _
  | cons x xs ih =>
    exact ((insertDescQ_perm x (sortByIdDesc xs)).trans
      (List.Perm.cons x ih))

theorem sortByIdDesc_sorted (l : List QA) :
    (sortByIdDesc l).Sorted (fun a b => b.id ≤ a.id) := by
  induction l with
  | nil => simp [sortByIdDesc]
  | cons x xs ih => exact insertDescQ_sorted x _ ih

/-- C10: the question list is kept newest-first — the stored form of a
fetched question list is a permutation of it sorted by id in descending
order (highest id first), and a locally added question is placed at index
0 of the existing list, never appended at the end. -/
theorem questions_newest_first (questions : List QA) (q : QA) (prev : List QA) :
    (sortByIdDesc questions).Sorted (fun a b => b.id ≤ a.id) ∧
    List.Perm (sortByIdDesc questions) questions ∧
    handleAddQuestion q prev = q :: prev :=
  ⟨sortByIdDesc_sorted questions, sortByIdDesc_perm questions, rfl⟩

/-- The slice of the page coordinator's state relevant to the batch
ordering question: the selected product id (`currentProductId`) and the
product id whose detail data the six `setCurrent...` setters last stored
(abstracting the six payloads by the id of the batch that produced
them). -/
structure CoordState where
  currentProductId : Option Int
  currentProduct : Option Int
  deriving DecidableEq, Repr

/-- Events of the coordinator: the user selects a product id
(`setCurrentProductId`, which re-runs the detail effect), or the
six-fetch batch started for a given product id settles and its
completion handler runs. -/
inductive CoordEvent where
  | selectProduct : Int → CoordEvent
  | batchResolves : Int → CoordEvent
  deriving DecidableEq, Repr

/-- The coordinator's reaction to one event, read off
`fetchProductDetails` (App.tsx:81-128): the completion handler of a
batch stores the batch's data unconditionally — the effect has no
cleanup function and no check comparing the batch's product id with the
currently selected one, so even a stale batch overwrites the state. -/
def coordStep (s : CoordState) : CoordEvent → CoordState
  | .selectProduct i => { s with currentProductId := some i }
  | .batchResolves i => { s with currentProduct := some i }

/-- Run the coordinator over a sequence of interleaved events. -/
def coordRun (s : CoordState) (events : List CoordEvent) : CoordState :=
  events.foldl coordStep s

/-- C6 evaluated on the failing interleaving: select product 1 (slow
batch), select product 2, batch 2 resolves, then the stale batch 1
resolves last — the final state shows product 1's data while the
selected id is 2, i.e. the stale batch is applied, not discarded. The
spec requires the opposite, so this is a defect in the code. -/
theorem staleBatch_overwrites_newer_selection :
    (coordRun ⟨none, none⟩
      [.selectProduct 1, .selectProduct 2, .batchResolves 2,
        .batchResolves 1]).currentProduct = some 1 ∧
    (coordRun ⟨none, none⟩
      [.selectProduct 1, .selectProduct 2, .batchResolves 2,
        .batchResolves 1]).currentProductId = some 2 ∧
    some (1 : Int) ≠ some (2 : Int) :=
  ⟨rfl, rfl, by decide⟩

end MLC

